import Mathlib

/-!
Verification development for the AI request orchestration and
subscription-gated request pipeline of the kingdom-gpt-hosting repository.

Each definition is a shallow embedding of a concrete piece of the
JavaScript source:

* quota guard            — `checkSubscriptionLimits` in the tenant middleware
* hardware classifier    — `AIOrchestrator.autoAssignModels` and
                           `HardwareDetector.hasGPU`
* model selection        — the `/process` and `/stream` route handlers
* model registry upsert  — `AIOrchestrator.registerModels`
* cost calculation       — `OpenAIProvider.calculateCost`
* streaming events       — `OpenAIProvider.generateTextStream` plus the
                           `/stream` route handler
* the `/process` handler — including its JavaScript block-scoping, which
                           matters for the failure path
-/

namespace KingdomGPT

/-! ## Quota guard (tenant middleware, `checkSubscriptionLimits`) -/

/-- Per-plan limits table, exactly the `limits` object literal of the
middleware: each metered feature gets an integer limit, `-1` meaning
unlimited. -/
structure PlanLimits where
  ai_requests_per_month : Int
  storage_gb : Int
  team_members : Int
  webhooks : Int
deriving Repr, DecidableEq

def freeLimits : PlanLimits := ⟨100, 1, 3, 1⟩

def basicLimits : PlanLimits := ⟨1000, 10, 10, 5⟩

def proLimits : PlanLimits := ⟨10000, 100, 50, 25⟩

def enterpriseLimits : PlanLimits := ⟨-1, -1, -1, -1⟩

/-- The metered features the middleware knows about. -/
inductive Feature where
  | ai_requests_per_month
  | storage_gb
  | team_members
  | webhooks
deriving Repr, DecidableEq

def PlanLimits.get (l : PlanLimits) : Feature → Int
  | .ai_requests_per_month => l.ai_requests_per_month
  | .storage_gb => l.storage_gb
  | .team_members => l.team_members
  | .webhooks => l.webhooks

/-- The own keys of the `limits` object literal are the four plan names;
any other property read on it consults `Object.prototype`. These are the
inherited property names of a plain object, all of which hold truthy
values (methods, plus the `__proto__` accessor, which returns
`Object.prototype` itself). -/
def objectPrototypeProps : List String :=
  ["constructor", "hasOwnProperty", "isPrototypeOf", "propertyIsEnumerable",
   "toLocaleString", "toString", "valueOf", "__proto__",
   "__defineGetter__", "__defineSetter__", "__lookupGetter__",
   "__lookupSetter__"]

/-- Result of the JavaScript property read `limits[plan]`: an own plan
row, a truthy value inherited from `Object.prototype`, or `undefined`. -/
inductive JsLookup where
  | own (l : PlanLimits)
  | inherited
  | missing
deriving Repr, DecidableEq

def limitsLookup (p : String) : JsLookup :=
  if p = "free" then .own freeLimits
  else if p = "basic" then .own basicLimits
  else if p = "pro" then .own proLimits
  else if p = "enterprise" then .own enterpriseLimits
  else if objectPrototypeProps.contains p then .inherited
  else .missing

/-- Value of `limits[subscriptionPlan] || limits.free` after the
short-circuit: the free fallback fires only when the lookup is falsy
(`undefined`, also for a missing plan); an inherited prototype member is
truthy and is kept. -/
inductive PlanLimitsVal where
  | own (l : PlanLimits)
  | inherited
deriving Repr, DecidableEq

def planLimitsOf (plan : Option String) : PlanLimitsVal :=
  match plan with
  | none => .own freeLimits
  | some p =>
    match limitsLookup p with
    | .own l => .own l
    | .inherited => .inherited
    | .missing => .own freeLimits

/-- The read `planLimits[feature]`: a number out of an own plan row, and
`undefined` (`none`) when `planLimits` is an inherited prototype member,
since neither those methods nor `Object.prototype` own a property named
after a metered feature. -/
def featureLimit (v : PlanLimitsVal) (feature : Feature) : Option Int :=
  match v with
  | .own l => some (l.get feature)
  | .inherited => none

/-- The `req.usageInfo` payload: `limit` is `none` when the JS value is
`undefined`, and `remaining` is `none` when `limit - currentUsage`
evaluates to `NaN`. -/
structure UsageInfo where
  feature : Feature
  current_usage : Int
  limit : Option Int
  remaining : Option Int
deriving Repr, DecidableEq

/-- Outcome of the subscription-limit middleware: either the request is
passed on (optionally with usage info attached to it), or it is denied
with a 403 payload carrying the usage, the limit and an upgrade URL. -/
inductive QuotaDecision where
  | allow (usage : Option UsageInfo)
  | deny (current_usage : Int) (limit : Int) (upgrade_url : String)
deriving Repr, DecidableEq

/-- The decision logic of `checkSubscriptionLimits(feature)`, with the
current usage (a database count) supplied as a parameter:
`limit === -1` short-circuits to `next()` before usage is even computed;
`currentUsage >= limit` produces the 403 response — and is false when
`limit` is `undefined`, as every JS ordering comparison with `undefined`
is — and anything else passes with `req.usageInfo` attached. -/
def checkSubscriptionLimits (plan : Option String) (feature : Feature)
    (currentUsage : Int) : QuotaDecision :=
  let limit := featureLimit (planLimitsOf plan) feature
  if limit = some (-1) then
    .allow none
  else
    match limit with
    | some l =>
      if currentUsage ≥ l then
        .deny currentUsage l "/api/payments/upgrade"
      else
        .allow (some ⟨feature, currentUsage, some l, some (l - currentUsage)⟩)
    | none => .allow (some ⟨feature, currentUsage, none, none⟩)

/-- Whether the middleware lets the request through. -/
def QuotaDecision.isAllowed : QuotaDecision → Bool
  | .allow _ => true
  | .deny _ _ _ => false

/-- Follows the spec's words, not the code: the decision table the
original claims assume, in which every unknown or missing plan name gets
the free row. Used only to state what those claims assert at the inputs
where they diverge from the program. -/
def specPlanLimits (plan : Option String) : PlanLimits :=
  match plan with
  | none => freeLimits
  | some p =>
    if p = "free" then freeLimits
    else if p = "basic" then basicLimits
    else if p = "pro" then proLimits
    else if p = "enterprise" then enterpriseLimits
    else freeLimits

/-! ## Hardware classification (`AIOrchestrator.autoAssignModels`) -/

/-- The four auto-assignment categories of `autoAssignModels`. -/
inductive HardwareCategory where
  | cpu_only
  | gpu_4gb
  | gpu_8gb
  | gpu_16gb
deriving Repr, DecidableEq

/-- GPU memory in GB as the orchestrator reads it:
`hardware.gpu ? hardware.gpu.memory : 0`. `none` models a host without a
detected GPU controller. -/
def gpuMemOf (gpu : Option ℚ) : ℚ := gpu.getD 0

/-- `HardwareDetector.hasGPU`: a GPU counts only when it is present and
reports strictly positive memory. -/
def hasGPU (gpu : Option ℚ) : Bool :=
  match gpu with
  | none => false
  | some m => decide (0 < m)

/-- The classification cascade of `autoAssignModels`: no GPU or zero
VRAM → `cpu_only`; `<= 4` GB → `gpu_4gb`; `<= 8` GB → `gpu_8gb`;
otherwise `gpu_16gb`. -/
def classifyHardware (gpu : Option ℚ) : HardwareCategory :=
  let gpuMemory := gpuMemOf gpu
  if gpu = none ∨ gpuMemory = 0 then .cpu_only
  else if gpuMemory ≤ 4 then .gpu_4gb
  else if gpuMemory ≤ 8 then .gpu_8gb
  else .gpu_16gb

/-! ## Assignment policy and model selection -/

/-- JavaScript
`modelConfig.auto_assignment[category] || modelConfig.auto_assignment.cpu_only`:
the per-category list when the key exists (an empty array is truthy in
JavaScript, hence kept), else the `cpu_only` list. -/
def assignedFor (cfg : HardwareCategory → Option (List String))
    (cat : HardwareCategory) : Option (List String) :=
  match cfg cat with
  | some l => some l
  | none => cfg .cpu_only

/-- Model selection of the `/process` and `/stream` routes: use the
requested model if present; otherwise
`(await redis.get('assigned_models') || ['gpt-3.5-turbo'])[0]` — the
stored assignment list when one exists (its first element, `none` when
the stored array is empty), else the literal fallback list. -/
def selectModel (requestedModel : Option String)
    (assignedModels : Option (List String)) : Option String :=
  match requestedModel with
  | some m => some m
  | none =>
    match assignedModels with
    | none => some "gpt-3.5-turbo"
    | some l => l.head?

/-! ## Hosted provider cost table (`OpenAIProvider.calculateCost`) -/

/-- The per-token pricing object literal of `OpenAIProvider`. Rates are
exact rationals: `0.00003 = 3/100000`, `0.00001 = 1/100000`,
`0.000002 = 1/500000`, `0.000004 = 1/250000`. -/
def pricing (model : String) : Option ℚ :=
  if model = "gpt-4" then some (3 / 100000)
  else if model = "gpt-4-turbo" then some (1 / 100000)
  else if model = "gpt-3.5-turbo" then some (1 / 500000)
  else if model = "gpt-3.5-turbo-16k" then some (1 / 250000)
  else none

/-- `calculateCost(model, tokens)`:
`(pricing[model] || pricing['gpt-3.5-turbo']) * tokens`. -/
def calculateCost (model : String) (tokens : ℚ) : ℚ :=
  match pricing model with
  | some rate => tokens * rate
  | none => tokens * (1 / 500000)

/-- `OpenAIProvider.estimateTokens`: `Math.ceil(text.length / 4)`. -/
def estimateTokens (text : String) : Nat :=
  (text.length + 3) / 4

/-! ## Model registry (`AIOrchestrator.registerModels`) -/

/-- One entry of the `models` array that `registerModels` builds from the
configuration file before upserting it. -/
structure ModelSpec where
  name : String
  provider : String
  model_type : String
  configuration : String
  performance_tier : String
  cost_per_token : ℚ
  max_tokens : Int
deriving Repr, DecidableEq

/-- One persisted row of the `ai_models` table, restricted to the columns
the pipeline reads. -/
structure ModelRow where
  name : String
  provider : String
  model_type : String
  configuration : String
  performance_tier : String
  cost_per_token : ℚ
  max_tokens : Int
  is_active : Bool
deriving Repr, DecidableEq

/-- The row a fresh INSERT produces: every column of the VALUES list of
`registerModels`, and `is_active` from its column default — the
api-gateway's `initializeTables` DDL declares
`is_active BOOLEAN DEFAULT TRUE` on `ai_models`. -/
def insertRow (m : ModelSpec) : ModelRow :=
  ⟨m.name, m.provider, m.model_type, m.configuration, m.performance_tier,
    m.cost_per_token, m.max_tokens, true⟩

/-- The `ON CONFLICT (name) DO UPDATE SET` clause of `registerModels`:
only `configuration`, `performance_tier`, `cost_per_token` and
`max_tokens` are overwritten (plus `updated_at`); `provider`,
`model_type` and `is_active` keep their stored values. -/
def conflictUpdate (r : ModelRow) (m : ModelSpec) : ModelRow :=
  { r with
    configuration := m.configuration
    performance_tier := m.performance_tier
    cost_per_token := m.cost_per_token
    max_tokens := m.max_tokens }

/-- The conflict-resolution semantics the upsert statement of
`registerModels` requests: over a table in which `name` is unique,
update the conflicting row in place when one exists, append a fresh row
otherwise. Note that the in-repo `ai_models` DDL declares no unique
constraint on `name`, so at runtime Postgres rejects the statement
instead of applying these semantics — see `onConflictUpsert`. -/
def upsertModel : List ModelRow → ModelSpec → List ModelRow
  | [], m => [insertRow m]
  | r :: rs, m =>
    if r.name = m.name then conflictUpdate r m :: rs
    else r :: upsertModel rs m

/-- The uniquely-constrained column sets of the `ai_models` table as
created by the api-gateway's `initializeTables`: only the primary key
`id`. `name` is merely `VARCHAR(255) NOT NULL`, and no other file adds a
unique constraint or index on it. -/
def aiModelsUniqueColumnSets : List (List String) := [["id"]]

/-- Postgres accepts `INSERT ... ON CONFLICT (cols) DO UPDATE` only when
a unique or exclusion constraint matches exactly the conflict target
columns; otherwise the whole statement fails with error 42P10 and
writes nothing. -/
def onConflictUpsert (uniqueSets : List (List String))
    (conflictCols : List String) (t : List ModelRow) (m : ModelSpec) :
    Except String (List ModelRow) :=
  if uniqueSets.contains conflictCols then .ok (upsertModel t m)
  else .error "42P10"

/-- `registerModels` runs its upsert statement (conflict target `name`)
once per configured model against the `ai_models` table, stopping at the
first error. -/
def registerModelsRun (t : List ModelRow) (ms : List ModelSpec) :
    Except String (List ModelRow) :=
  ms.foldlM (fun acc m => onConflictUpsert aiModelsUniqueColumnSets ["name"] acc m) t

/-- The route lookup
`SELECT * FROM ai_models WHERE name = $1 AND is_active = true`. -/
def lookupActiveModel (t : List ModelRow) (name : String) : Option ModelRow :=
  t.find? (fun r => r.name = name && r.is_active)

/-- Lookup by name alone (uniqueness of `name` is a table constraint). -/
def findByName (t : List ModelRow) (name : String) : Option ModelRow :=
  t.find? (fun r => r.name = name)

/-- Number of rows carrying a given name. -/
def countName (t : List ModelRow) (name : String) : Nat :=
  (t.filter (fun r => r.name = name)).length

/-! ## Streaming events (`OpenAIProvider.generateTextStream` + `/stream`) -/

/-- Everything the `/stream` handler writes onto the SSE channel. -/
inductive SEvent where
  /-- bare `{ error: msg }` writes (model unavailable, streaming
  unsupported, outer catch) -/
  | plainError (msg : String)
  /-- the `{ jobId, status: 'started' }` write -/
  | started (jobId : String)
  /-- one `{ jobId, type: 'chunk', content, tokenCount }` write -/
  | chunk (jobId : String) (content : String) (tokenCount : Nat)
  /-- the `{ jobId, type: 'complete', usage, cost, processingTime }` write -/
  | complete (jobId : String) (totalTokens : Nat) (cost : ℚ) (processingTime : Int)
  /-- the `{ jobId, type: 'error', error }` write -/
  | errorEvt (jobId : String) (msg : String)
deriving Repr, DecidableEq

def SEvent.isChunk : SEvent → Bool
  | .chunk _ _ _ => true
  | _ => false

/-- The claim's terminal events: `complete` and `error`. -/
def SEvent.isTerminal : SEvent → Bool
  | .complete _ _ _ _ => true
  | .errorEvt _ _ => true
  | _ => false

/-- The chunk loop of `OpenAIProvider.generateTextStream`: each stream
delta with non-empty content bumps the running estimate by
`estimateTokens(content)` and fires `onChunk` (which the `/stream`
handler turns into a chunk write); empty deltas are skipped. Returns the
emitted events together with the final running estimate, which the
provider reports as `usage.total_tokens`. -/
def chunkEvents (jobId : String) : List String → Nat → List SEvent × Nat
  | [], acc => ([], acc)
  | f :: fs, acc =>
    if f.length = 0 then chunkEvents jobId fs acc
    else
      let acc' := acc + estimateTokens f
      let rest := chunkEvents jobId fs acc'
      (.chunk jobId f acc' :: rest.1, rest.2)

/-- What the provider stream did: either it ended normally after
producing the given content deltas, or it raised after producing some. -/
inductive StreamOutcome where
  | success (frags : List String)
  | failure (frags : List String) (msg : String)
deriving Repr, DecidableEq

def StreamOutcome.frags : StreamOutcome → List String
  | .success fs => fs
  | .failure fs _ => fs

/-! ## Job rows (`ai_jobs` writes performed by the two routes) -/

/-- One `ai_jobs` row, restricted to the columns the routes write. -/
structure JobRow where
  id : String
  prompt : String
  status : String
  model_id : Option Int
  error_message : Option String
  response : Option String
  tokens_used : Option Int
  cost : Option ℚ
  processing_time : Option Int
  completed_at : Bool
deriving Repr, DecidableEq

/-- The `/process` INSERT: a fresh row in status `pending` with no model
resolved yet. -/
def pendingJob (jobId prompt : String) : JobRow :=
  ⟨jobId, prompt, "pending", none, none, none, none, none, none, false⟩

/-! ## JavaScript scoping of the `/process` handler

`const` declarations are block-scoped. The handler's outer `try` block
declares `errors`, `jobId`, `selectedModel` (a `let`), `modelResult`,
`modelInfo` and `provider`; the inner `try` block around the provider
call declares `startTime`, `result` and `processingTime`. The inner
`catch` block is a sibling of the inner `try`, so it sees the outer
declarations and its own `error` parameter — not the inner `try`'s
consts. -/

/-- Names bound in the outer `try` block of the `/process` handler (its
destructured request fields included). -/
def processOuterScope : List String :=
  ["errors", "prompt", "requestedModel", "options", "orchestrator",
   "jobId", "selectedModel", "modelResult", "modelInfo", "provider"]

/-- Names `const`-bound inside the inner `try` block, visible only
there. -/
def processInnerTryScope : List String :=
  ["startTime", "result", "processingTime"]

/-- The environment of the inner `catch` block: its `error` parameter
plus the outer scope. -/
def processCatchScope : List String :=
  "error" :: processOuterScope

/-- Whether an identifier resolves in a scope; a name outside the scope
raises a `ReferenceError` when evaluated. -/
def inScope (scope : List String) (x : String) : Bool :=
  scope.contains x

/-! ## The synchronous `/process` handler -/

/-- Result of the awaited `provider.generateText` call. -/
inductive ProviderResult where
  | ok (response : String) (total_tokens : Int) (cost : ℚ)
  | err (msg : String)
deriving Repr, DecidableEq

/-- The resolved `ai_models` row as far as the handler reads it:
`modelInfo.id` and `modelInfo.provider`. -/
structure ModelInfo where
  id : Int
  provider : String
deriving Repr, DecidableEq

/-- A message published on Redis: channel, job id, status field, optional
error field. -/
structure PubMessage where
  channel : String
  jobId : String
  status : String
  error : Option String
deriving Repr, DecidableEq

/-- Observable state left behind by one `/process` request. -/
structure SyncState where
  job : Option JobRow
  published : List PubMessage
  providerCalled : Bool
deriving Repr, DecidableEq

/-- The HTTP response of `/process`. -/
inductive SyncResponse where
  | validationFailed
  | modelNotAvailable (msg : String)
  | providerUnavailable (msg : String)
  | success (jobId response model : String) (tokens : Int) (cost : ℚ)
      (processingTime : Int)
  | processingFailed (msg : String)
deriving Repr, DecidableEq

/-- Shallow embedding of the `/process` route handler, with the awaited
effects (model lookup result, provider registration, provider outcome,
wall-clock delta) supplied as parameters. Validation runs first; the job
row is inserted as `pending` before resolution; model or provider
unavailability updates it to `failed`; otherwise it moves to
`processing` and the provider is invoked. On provider success the row is
completed and a completion event published. On provider failure the
inner `catch` block's first statement reads `startTime`, which is not in
its scope, so a `ReferenceError` propagates to the outer catch before
any of the catch block's updates run. -/
def processHandler (jobId prompt selectedModel : String)
    (modelRes : Option ModelInfo) (providerRegistered : Bool)
    (outcome : ProviderResult) (elapsed : Int) :
    SyncState × SyncResponse :=
  if ¬ (1 ≤ prompt.length ∧ prompt.length ≤ 10000) then
    (⟨none, [], false⟩, .validationFailed)
  else
    let j0 := pendingJob jobId prompt
    match modelRes with
    | none =>
      let msg := "Model " ++ selectedModel ++ " not found or inactive"
      (⟨some { j0 with status := "failed", error_message := some msg },
        [], false⟩,
       .modelNotAvailable ("Model " ++ selectedModel ++ " is not available"))
    | some mi =>
      if ¬ providerRegistered then
        let msg := "Provider " ++ mi.provider ++ " not available"
        (⟨some { j0 with status := "failed", error_message := some msg },
          [], false⟩,
         .providerUnavailable ("Provider " ++ mi.provider ++ " is not available"))
      else
        let jProc := { j0 with status := "processing", model_id := some mi.id }
        match outcome with
        | .ok resp tokens cost =>
          let jDone := { jProc with
            status := "completed"
            response := some resp
            tokens_used := some tokens
            cost := some cost
            processing_time := some elapsed
            completed_at := true }
          (⟨some jDone,
            [⟨"ai_job_updates", jobId, "completed", none⟩], true⟩,
           .success jobId resp selectedModel tokens cost elapsed)
        | .err msg =>
          if inScope processCatchScope "startTime" then
            let jFail := { jProc with
              status := "failed"
              error_message := some msg
              processing_time := some elapsed
              completed_at := true }
            (⟨some jFail,
              [⟨"ai_job_updates", jobId, "failed", some msg⟩], true⟩,
             .processingFailed msg)
          else
            (⟨some jProc, [], true⟩,
             .processingFailed "startTime is not defined")

/-! ## The streaming `/stream` handler -/

/-- Observable state left behind by one `/stream` request: the job rows
it inserted (with their final column values) and the SSE events it
wrote, in order. -/
structure StreamState where
  jobs : List JobRow
  events : List SEvent
  providerCalled : Bool
deriving Repr, DecidableEq

/-- Shallow embedding of the `/stream` route handler. The same validator
chain as `/process` is attached to the route, but the handler never
consults `validationResult`, so no prompt check guards the body. Model
or provider unavailability writes a bare error event and ends the stream
without inserting any job row; otherwise a row is inserted in status
`streaming`, a `started` event is written, the provider's chunk callback
produces chunk events in order, and the stream ends with exactly one
`complete` (row → `completed`) or `error` (row → `failed`) event. -/
def streamHandler (jobId prompt selectedModel : String)
    (modelRes : Option ModelInfo) (providerStreams : Bool)
    (outcome : StreamOutcome) (elapsed : Int) : StreamState :=
  match modelRes with
  | none => ⟨[], [.plainError "Model not available"], false⟩
  | some mi =>
    if ¬ providerStreams then
      ⟨[], [.plainError "Streaming not supported for this provider"], false⟩
    else
      let j0 : JobRow :=
        ⟨jobId, prompt, "streaming", some mi.id, none, none, none, none,
          none, false⟩
      match outcome with
      | .success frags =>
        let emitted := chunkEvents jobId frags 0
        let total := emitted.2
        let cost := calculateCost selectedModel (total : ℚ)
        let jDone := { j0 with
          status := "completed"
          response := some (String.join frags)
          tokens_used := some (total : Int)
          cost := some cost
          processing_time := some elapsed
          completed_at := true }
        ⟨[jDone],
          .started jobId ::
            (emitted.1 ++ [.complete jobId total cost elapsed]), true⟩
      | .failure frags msg =>
        let emitted := chunkEvents jobId frags 0
        let jFail := { j0 with
          status := "failed"
          error_message := some msg
          processing_time := some elapsed
          completed_at := true }
        ⟨[jFail],
          .started jobId :: (emitted.1 ++ [.errorEvt jobId msg]), true⟩

/-- The chunk payloads of an event list, in order. -/
def chunkContents : List SEvent → List String
  | [] => []
  | .chunk _ c _ :: rest => c :: chunkContents rest
  | _ :: rest => chunkContents rest

/-- Decides that no chunk event occurs anywhere after a terminal
(`complete` or `error`) event. -/
def noChunkAfterTerminal : List SEvent → Bool
  | [] => true
  | e :: rest =>
    (if e.isTerminal then rest.all (fun x => !x.isChunk) else true)
      && noChunkAfterTerminal rest

/-! ## Helper lemmas -/

/-- A host the detector says has no usable GPU (and whose reported memory
is the physical, non-negative kind) is classified `cpu_only`. -/
theorem classify_of_no_gpu (gpu : Option ℚ) (h0 : 0 ≤ gpuMemOf gpu)
    (h : hasGPU gpu = false) : classifyHardware gpu = .cpu_only := by
  cases gpu with
  | none => simp [classifyHardware]
  | some m =>
    have hm : m = 0 := by
      have := of_decide_eq_false h
      have h0m : (0 : ℚ) ≤ m := h0
      linarith [not_lt.mp this]
    simp [classifyHardware, gpuMemOf, hm]

theorem allowed_iff_own (plan : Option String) (feature : Feature) (u : Int)
    (l : PlanLimits) (h : planLimitsOf plan = .own l) :
    (checkSubscriptionLimits plan feature u).isAllowed = true ↔
      (l.get feature = -1 ∨ u < l.get feature) := by
  unfold checkSubscriptionLimits
  rw [h]
  by_cases h1 : l.get feature = -1
  · simp [featureLimit, h1, QuotaDecision.isAllowed]
  · by_cases h2 : u ≥ l.get feature
    · simp [featureLimit, h1, h2, QuotaDecision.isAllowed]
      try omega
    · simp [featureLimit, h1, h2, QuotaDecision.isAllowed]
      try omega

theorem inherited_allows (plan : Option String) (feature : Feature) (u : Int)
    (h : planLimitsOf plan = .inherited) :
    (checkSubscriptionLimits plan feature u).isAllowed = true := by
  unfold checkSubscriptionLimits
  rw [h]
  simp [featureLimit, QuotaDecision.isAllowed]

theorem planLimitsOf_unknown (p : String) (h1 : p ≠ "free") (h2 : p ≠ "basic")
    (h3 : p ≠ "pro") (h4 : p ≠ "enterprise")
    (h5 : objectPrototypeProps.contains p = false) :
    planLimitsOf (some p) = .own freeLimits := by
  have h5m : p ∉ objectPrototypeProps := by simpa using h5
  simp [planLimitsOf, limitsLookup, h1, h2, h3, h4, h5m]

theorem planLimitsOf_proto (p : String) (h1 : p ≠ "free") (h2 : p ≠ "basic")
    (h3 : p ≠ "pro") (h4 : p ≠ "enterprise")
    (h5 : objectPrototypeProps.contains p = true) :
    planLimitsOf (some p) = .inherited := by
  have h5m : p ∈ objectPrototypeProps := by simpa using h5
  simp [planLimitsOf, limitsLookup, h1, h2, h3, h4, h5m]

theorem upsert_fresh (t : List ModelRow) (m : ModelSpec)
    (h : ∀ r ∈ t, r.name ≠ m.name) :
    upsertModel t m = t ++ [insertRow m] := by
  induction t with
  | nil => rfl
  | cons r rs ih =>
    have hr : r.name ≠ m.name := h r (by simp)
    simp [upsertModel, hr, ih (fun x hx => h x (by simp [hx]))]

theorem find?_rows_append (p : ModelRow → Bool) (t l2 : List ModelRow)
    (h : ∀ r ∈ t, p r = false) :
    List.find? p (t ++ l2) = List.find? p l2 := by
  induction t with
  | nil => rfl
  | cons r rs ih =>
    rw [List.cons_append, List.find?_cons_of_neg, ih (fun x hx => h x (by simp [hx]))]
    simp [h r (by simp)]

theorem upsert_append_conflict (t : List ModelRow) (m m2 : ModelSpec)
    (h : ∀ r ∈ t, r.name ≠ m.name) (hn : m2.name = m.name) :
    upsertModel (t ++ [insertRow m]) m2 = t ++ [conflictUpdate (insertRow m) m2] := by
  induction t with
  | nil => simp [upsertModel, insertRow, hn]
  | cons r rs ih =>
    have hr : r.name ≠ m2.name := by
      rw [hn]
      exact h r (by simp)
    simp [upsertModel, hr, ih (fun x hx => h x (by simp [hx]))]

theorem countName_append (t l2 : List ModelRow) (name : String) :
    countName (t ++ l2) name = countName t name + countName l2 name := by
  simp [countName, List.filter_append]

theorem countName_fresh (t : List ModelRow) (name : String)
    (h : ∀ r ∈ t, r.name ≠ name) : countName t name = 0 := by
  induction t with
  | nil => rfl
  | cons r rs ih =>
    simp [countName, List.filter_cons, h r (by simp)]
    have := ih (fun x hx => h x (by simp [hx]))
    simpa [countName] using this

theorem chunkEvents_snd (jobId : String) (frags : List String) (acc : Nat) :
    (chunkEvents jobId frags acc).2 = acc + (frags.map estimateTokens).sum := by
  induction frags generalizing acc with
  | nil => simp [chunkEvents]
  | cons f fs ih =>
    by_cases hf : f.length = 0
    · have hf0 : estimateTokens f = 0 := by simp [estimateTokens, hf]
      simp [chunkEvents, hf, ih, hf0]
    · simp [chunkEvents, hf, ih]
      omega

theorem chunkEvents_contents (jobId : String) (frags : List String) (acc : Nat) :
    chunkContents (chunkEvents jobId frags acc).1 =
      frags.filter (fun f => f.length ≠ 0) := by
  induction frags generalizing acc with
  | nil => simp [chunkEvents, chunkContents]
  | cons f fs ih =>
    by_cases hf : f.length = 0
    · simp [chunkEvents, hf, List.filter_cons, ih]
    · simp [chunkEvents, hf, List.filter_cons, chunkContents, ih]

theorem chunkEvents_all_chunk (jobId : String) (frags : List String) (acc : Nat) :
    ∀ e ∈ (chunkEvents jobId frags acc).1, e.isChunk = true := by
  induction frags generalizing acc with
  | nil => simp [chunkEvents]
  | cons f fs ih =>
    by_cases hf : f.length = 0
    · simpa [chunkEvents, hf] using ih acc
    · intro e he
      simp [chunkEvents, hf] at he
      rcases he with he | he
      · simp [he, SEvent.isChunk]
      · exact ih _ _ he

theorem isTerminal_eq_false_of_isChunk (e : SEvent) (h : e.isChunk = true) :
    e.isTerminal = false := by
  cases e <;> simp_all [SEvent.isChunk, SEvent.isTerminal]

theorem complete_not_mem_chunkEvents (jobId : String) (frags : List String)
    (acc : Nat) (tid : String) (total : Nat) (cost : ℚ) (pt : Int) :
    SEvent.complete tid total cost pt ∉ (chunkEvents jobId frags acc).1 := by
  intro hmem
  have := chunkEvents_all_chunk jobId frags acc _ hmem
  simp [SEvent.isChunk] at this

theorem chunkContents_append (l1 l2 : List SEvent) :
    chunkContents (l1 ++ l2) = chunkContents l1 ++ chunkContents l2 := by
  induction l1 with
  | nil => rfl
  | cons e rest ih => cases e <;> simp [chunkContents, ih]

theorem noChunkAfterTerminal_append_single (l : List SEvent) (term : SEvent)
    (h : ∀ e ∈ l, e.isTerminal = false) :
    noChunkAfterTerminal (l ++ [term]) = true := by
  induction l with
  | nil => simp [noChunkAfterTerminal]
  | cons e rest ih =>
    simp [noChunkAfterTerminal, h e (by simp),
      ih (fun x hx => h x (by simp [hx]))]

theorem filter_terminal_append_single (l : List SEvent) (term : SEvent)
    (h : ∀ e ∈ l, e.isTerminal = false) (ht : term.isTerminal = true) :
    ((l ++ [term]).filter SEvent.isTerminal).length = 1 := by
  induction l with
  | nil => simp [List.filter, ht]
  | cons e rest ih =>
    simp only [List.cons_append, List.filter_cons, h e (by simp)]
    simpa using ih (fun x hx => h x (by simp [hx]))

theorem upsert_preserves_active (t0 : List ModelRow) (m0 : ModelSpec) (r0 : ModelRow) :
    findByName t0 m0.name = some r0 →
    (findByName (upsertModel t0 m0) m0.name).map (fun r => r.is_active) =
      some r0.is_active := by
  induction t0 with
  | nil => intro h0; simp [findByName] at h0
  | cons r rs ih =>
    intro h0
    by_cases hr : r.name = m0.name
    · have hrr : r = r0 := by
        unfold findByName at h0
        rw [List.find?_cons_of_pos] at h0
        · exact Option.some.inj h0
        · simp [hr]
      subst hrr
      rw [show upsertModel (r :: rs) m0 = conflictUpdate r m0 :: rs from by
        simp [upsertModel, hr]]
      unfold findByName
      rw [List.find?_cons_of_pos]
      · simp [conflictUpdate]
      · simp [conflictUpdate, hr]
    · rw [show upsertModel (r :: rs) m0 = r :: upsertModel rs m0 from by
        simp [upsertModel, hr]]
      unfold findByName at h0 ⊢
      rw [List.find?_cons_of_neg] at h0
      · rw [List.find?_cons_of_neg]
        · exact ih h0
        · simp [hr]
      · simp [hr]

/-! ## Claim theorems -/

/-- C2 counterexample: a tenant whose `subscription_plan` is `toString`
is allowed at usage 100, although the plan's limit under the claimed
decision table (unknown plan → free row) is 100 — neither the unlimited
sentinel nor above the usage — because `limits["toString"]` is the
truthy inherited `Object.prototype.toString`, the free fallback never
fires, and `currentUsage >= undefined` is false. -/
theorem C2_counterexample :
    (checkSubscriptionLimits (some "toString") .ai_requests_per_month 100).isAllowed = true
    ∧ (specPlanLimits (some "toString")).get .ai_requests_per_month = 100
    ∧ ¬((specPlanLimits (some "toString")).get .ai_requests_per_month = -1
        ∨ (100 : Int) < (specPlanLimits (some "toString")).get .ai_requests_per_month) := by
  refine ⟨by decide, by decide, by decide⟩

/-- C2 amended: whenever the plan lookup lands on one of the four own
plan rows or falls back to the free row, the check allows
unconditionally on the `-1` sentinel and otherwise allows iff
`currentUsage < limit` — free plan: 99 allowed, 100 denied with usage,
limit and upgrade path; enterprise always allowed. When the plan name
collides with an `Object.prototype` property, the inherited truthy
value bypasses the free fallback, the feature limit is `undefined`, and
every request is allowed regardless of usage. -/
theorem C2_quota_rule_amended :
    (∀ (plan : Option String) (feature : Feature) (u : Int) (l : PlanLimits),
        planLimitsOf plan = .own l →
        ((checkSubscriptionLimits plan feature u).isAllowed = true ↔
          (l.get feature = -1 ∨ u < l.get feature)))
    ∧ (∀ (p : String) (feature : Feature) (u : Int),
        p ≠ "free" → p ≠ "basic" → p ≠ "pro" → p ≠ "enterprise" →
        objectPrototypeProps.contains p = true →
        (checkSubscriptionLimits (some p) feature u).isAllowed = true)
    ∧ (checkSubscriptionLimits (some "free") .ai_requests_per_month 99).isAllowed = true
    ∧ checkSubscriptionLimits (some "free") .ai_requests_per_month 100 =
        .deny 100 100 "/api/payments/upgrade"
    ∧ ∀ (feature : Feature) (u : Int),
        (checkSubscriptionLimits (some "enterprise") feature u).isAllowed = true := by
  refine ⟨allowed_iff_own, ?_, by decide, by decide, ?_⟩
  · intro p feature u h1 h2 h3 h4 h5
    exact inherited_allows _ _ _ (planLimitsOf_proto p h1 h2 h3 h4 h5)
  · intro feature u
    rw [allowed_iff_own (some "enterprise") feature u enterpriseLimits (by decide)]
    left
    cases feature <;> decide

/-- Witness for C2's amended statement: the pro plan's webhook limit,
and a prototype-colliding plan name allowed at an arbitrary usage. -/
theorem C2_witness :
    (checkSubscriptionLimits (some "pro") .webhooks 7).isAllowed = true
    ∧ (checkSubscriptionLimits (some "valueOf") .webhooks 1000000).isAllowed = true :=
  ⟨(C2_quota_rule_amended.1 (some "pro") .webhooks 7 proLimits (by decide)).mpr
      (Or.inr (by decide)),
   C2_quota_rule_amended.2.1 "valueOf" .webhooks 1000000 (by decide) (by decide)
      (by decide) (by decide) (by decide)⟩

/-- C10 counterexample: the unknown plan name `toString` does not get
the free-plan limits — the lookup keeps the truthy inherited prototype
member, the limit is `undefined`, and usage 100 is allowed where the
free row denies it. -/
theorem C10_counterexample :
    planLimitsOf (some "toString") ≠ .own freeLimits
    ∧ (checkSubscriptionLimits (some "toString") .ai_requests_per_month 100).isAllowed = true
    ∧ (checkSubscriptionLimits (some "free") .ai_requests_per_month 100).isAllowed = false := by
  refine ⟨by decide, by decide, by decide⟩

/-- C10 amended: a missing plan, or an unknown plan name that is not an
`Object.prototype` property, silently gets the free-plan limits
(100 AI requests, 1 GB storage, 3 team members, 1 webhook) and exactly
the free-plan decision; an unknown plan name that is an
`Object.prototype` property instead bypasses the fallback, its feature
limit is `undefined`, and every request is allowed. -/
theorem C10_unknown_plan_amended :
    (∀ p : String, p ≠ "free" → p ≠ "basic" → p ≠ "pro" → p ≠ "enterprise" →
        objectPrototypeProps.contains p = false →
        planLimitsOf (some p) = .own freeLimits
        ∧ ∀ (feature : Feature) (u : Int),
            checkSubscriptionLimits (some p) feature u =
              checkSubscriptionLimits (some "free") feature u)
    ∧ planLimitsOf none = .own freeLimits
    ∧ freeLimits = ⟨100, 1, 3, 1⟩
    ∧ (∀ (p : String) (feature : Feature) (u : Int),
        p ≠ "free" → p ≠ "basic" → p ≠ "pro" → p ≠ "enterprise" →
        objectPrototypeProps.contains p = true →
        (checkSubscriptionLimits (some p) feature u).isAllowed = true) := by
  refine ⟨?_, rfl, rfl, ?_⟩
  · intro p h1 h2 h3 h4 h5
    have hp := planLimitsOf_unknown p h1 h2 h3 h4 h5
    refine ⟨hp, ?_⟩
    intro feature u
    unfold checkSubscriptionLimits
    rw [hp, show planLimitsOf (some "free") = .own freeLimits from by decide]
  · intro p feature u h1 h2 h3 h4 h5
    exact inherited_allows _ _ _ (planLimitsOf_proto p h1 h2 h3 h4 h5)

/-- Witness for C10's amended statement at the unknown plan name
`premium` and the prototype-colliding name `hasOwnProperty`. -/
theorem C10_witness :
    planLimitsOf (some "premium") = .own freeLimits
    ∧ checkSubscriptionLimits (some "premium") .ai_requests_per_month 100 =
        checkSubscriptionLimits (some "free") .ai_requests_per_month 100
    ∧ (checkSubscriptionLimits (some "hasOwnProperty") .storage_gb 999).isAllowed = true :=
  ⟨(C10_unknown_plan_amended.1 "premium" (by decide) (by decide) (by decide)
      (by decide) (by decide)).1,
   (C10_unknown_plan_amended.1 "premium" (by decide) (by decide) (by decide)
      (by decide) (by decide)).2 .ai_requests_per_month 100,
   C10_unknown_plan_amended.2.2.2 "hasOwnProperty" .storage_gb 999 (by decide)
      (by decide) (by decide) (by decide) (by decide)⟩

/-- C5: hardware classification is a pure function of the GPU reading:
no GPU or zero VRAM gives `cpu_only`; positive VRAM up to 4 GB gives
`gpu_4gb`; above 4 up to 8 GB gives `gpu_8gb`; above 8 GB gives
`gpu_16gb` — with 4 GB landing in `gpu_4gb` and 8 GB in `gpu_8gb`. -/
theorem C5_hardware_classification :
    (∀ gpu : Option ℚ, 0 ≤ gpuMemOf gpu →
        (hasGPU gpu = false → classifyHardware gpu = .cpu_only)
        ∧ (hasGPU gpu = true →
            ((gpuMemOf gpu ≤ 4 → classifyHardware gpu = .gpu_4gb)
             ∧ (4 < gpuMemOf gpu → gpuMemOf gpu ≤ 8 →
                 classifyHardware gpu = .gpu_8gb)
             ∧ (8 < gpuMemOf gpu → classifyHardware gpu = .gpu_16gb))))
    ∧ classifyHardware none = .cpu_only
    ∧ classifyHardware (some 0) = .cpu_only
    ∧ classifyHardware (some 4) = .gpu_4gb
    ∧ classifyHardware (some 8) = .gpu_8gb
    ∧ classifyHardware (some 16) = .gpu_16gb := by
  refine ⟨?_, by decide, by decide, by decide, by decide, by decide⟩
  intro gpu h0
  refine ⟨classify_of_no_gpu gpu h0, ?_⟩
  intro hg
  cases gpu with
  | none => simp [hasGPU] at hg
  | some m =>
    have hm : (0 : ℚ) < m := of_decide_eq_true hg
    refine ⟨?_, ?_, ?_⟩
    · intro h4
      have h4m : m ≤ 4 := h4
      simp [classifyHardware, gpuMemOf, hm.ne', h4m]
    · intro h4 h8
      have h4m : ¬ m ≤ 4 := not_le.mpr h4
      have h8m : m ≤ 8 := h8
      simp [classifyHardware, gpuMemOf, hm.ne', h4m, h8m]
    · intro h8
      have h8m : ¬ m ≤ 8 := not_le.mpr h8
      have h4m : ¬ m ≤ 4 := not_le.mpr (lt_trans (by norm_num) h8)
      simp [classifyHardware, gpuMemOf, hm.ne', h4m, h8m]

/-- Witness for C5 at a 4 GB GPU. -/
theorem C5_witness :
    (0 : ℚ) ≤ gpuMemOf (some 4) ∧ hasGPU (some 4) = true
    ∧ classifyHardware (some 4) = .gpu_4gb :=
  ⟨by simp [gpuMemOf], by decide,
   ((C5_hardware_classification.1 (some 4) (by simp [gpuMemOf])).2
      (by decide)).1 (by simp [gpuMemOf])⟩

/-- C6: a request that does not name a model resolves to the first entry
of the stored assignment list (under a no-GPU classification, the first
entry of the `cpu_only` list), and to `gpt-3.5-turbo` when no assignment
list is stored. -/
theorem C6_default_model_resolution :
    (∀ (cfg : HardwareCategory → Option (List String)) (cat : HardwareCategory)
        (m : String) (rest : List String),
        assignedFor cfg cat = some (m :: rest) →
        selectModel none (assignedFor cfg cat) = some m)
    ∧ (∀ (cfg : HardwareCategory → Option (List String)) (gpu : Option ℚ)
        (m : String) (rest : List String),
        hasGPU gpu = false → 0 ≤ gpuMemOf gpu →
        cfg .cpu_only = some (m :: rest) →
        selectModel none (assignedFor cfg (classifyHardware gpu)) = some m)
    ∧ selectModel none none = some "gpt-3.5-turbo" := by
  refine ⟨?_, ?_, rfl⟩
  · intro cfg cat m rest h
    rw [h]
    rfl
  · intro cfg gpu m rest hg h0 hc
    rw [classify_of_no_gpu gpu h0 hg]
    have ha : assignedFor cfg .cpu_only = some (m :: rest) := by
      simp [assignedFor, hc]
    rw [ha]
    rfl

/-- Witness for C6: a no-GPU host with a stored two-element list, and the
fallback when nothing is stored. -/
theorem C6_witness :
    selectModel none
        (assignedFor (fun _ => some ["llama2-7b", "gpt-4"]) (classifyHardware none)) =
      some "llama2-7b"
    ∧ selectModel none none = some "gpt-3.5-turbo" :=
  ⟨C6_default_model_resolution.2.1 (fun _ => some ["llama2-7b", "gpt-4"]) none
      "llama2-7b" ["gpt-4"] rfl (by simp [gpuMemOf]) rfl,
   C6_default_model_resolution.2.2⟩

theorem pricing_gpt35 : pricing "gpt-3.5-turbo" = some (1 / 500000) := by
  unfold pricing
  rw [if_neg (by decide), if_neg (by decide), if_pos rfl]

theorem pricing_gpt4 : pricing "gpt-4" = some (3 / 100000) := by
  unfold pricing
  rw [if_pos rfl]

/-- C9: hosted cost is the token count times the per-model rate of the
pricing table; at rate `0.000002` and 500 tokens the cost is exactly
`0.001`. -/
theorem C9_cost_deterministic :
    (∀ (model : String) (tokens r : ℚ), pricing model = some r →
        calculateCost model tokens = tokens * r)
    ∧ pricing "gpt-3.5-turbo" = some (1 / 500000)
    ∧ calculateCost "gpt-3.5-turbo" 500 = 1 / 1000 := by
  refine ⟨?_, pricing_gpt35, ?_⟩
  · intro model tokens r h
    simp [calculateCost, h]
  · simp [calculateCost, pricing_gpt35]
    norm_num

/-- Witness for C9 at the `gpt-4` table entry. -/
theorem C9_witness :
    calculateCost "gpt-4" 100 = 100 * (3 / 100000) :=
  C9_cost_deterministic.1 "gpt-4" 100 (3 / 100000) pricing_gpt4

/-- Properties of the conflict-resolution semantics that the upsert
statement requests (applicable only over a table in which `name` is
unique): round-trip of provider, tier and cost; in-place update of
configuration, tier, cost and token limit on a second upsert of the
same name with no duplicate row; and preservation of `is_active`. -/
theorem upsertModel_conflict_semantics :
    ∀ (t : List ModelRow) (m m2 : ModelSpec),
      (∀ r ∈ t, r.name ≠ m.name) → m2.name = m.name →
      ((lookupActiveModel (upsertModel t m) m.name).map
          (fun r => (r.provider, r.performance_tier, r.cost_per_token)) =
        some (m.provider, m.performance_tier, m.cost_per_token))
      ∧ countName (upsertModel (upsertModel t m) m2) m.name = 1
      ∧ ((findByName (upsertModel (upsertModel t m) m2) m.name).map
          (fun r => (r.provider, r.configuration, r.performance_tier,
            r.cost_per_token, r.max_tokens, r.is_active)) =
        some (m.provider, m2.configuration, m2.performance_tier,
          m2.cost_per_token, m2.max_tokens, true))
      ∧ (∀ (t0 : List ModelRow) (m0 : ModelSpec) (r0 : ModelRow),
          findByName t0 m0.name = some r0 →
          (findByName (upsertModel t0 m0) m0.name).map (fun r => r.is_active) =
            some r0.is_active) := by
  intro t m m2 hfresh hn
  have hup : upsertModel t m = t ++ [insertRow m] := upsert_fresh t m hfresh
  refine ⟨?_, ?_, ?_, upsert_preserves_active⟩
  · rw [hup]
    unfold lookupActiveModel
    rw [find?_rows_append _ t _ (fun r hr => by simp [hfresh r hr])]
    simp [insertRow, List.find?]
  · rw [hup, upsert_append_conflict t m m2 hfresh hn, countName_append,
      countName_fresh t m.name hfresh]
    simp [countName, List.filter_cons, conflictUpdate, insertRow]
  · rw [hup, upsert_append_conflict t m m2 hfresh hn]
    unfold findByName
    rw [find?_rows_append _ t _ (fun r hr => by simp [hfresh r hr])]
    simp [conflictUpdate, insertRow, List.find?]

/-- C8: the registration claim fails at runtime. The upsert statement
names the conflict target `(name)`, but the `ai_models` table created
by the api-gateway's `initializeTables` has no unique or exclusion
constraint on `name` (only the primary key `id`), so Postgres rejects
the statement with error 42P10 at the very first configured model:
nothing is inserted or updated, and the claimed round-trip and
idempotent-update behaviour never happens. -/
theorem C8_upsert_rejected :
    aiModelsUniqueColumnSets.contains ["name"] = false
    ∧ registerModelsRun []
        [⟨"gpt-4", "openai", "text-generation", "cfgA", "high", 3 / 100000, 4096⟩] =
      .error "42P10"
    ∧ ∀ (t : List ModelRow) (m : ModelSpec) (ms : List ModelSpec),
        registerModelsRun t (m :: ms) = .error "42P10" := by
  refine ⟨rfl, rfl, ?_⟩
  intro t m ms
  rfl

/-- C7: a streaming request that reaches generation emits one `started`
event carrying the job id, then chunk events in the provider's emission
order (empty deltas skipped), then exactly one terminal `complete` or
`error` event, which is last; no chunk event follows a terminal event,
and the `complete` event's token total is at least the sum of the
per-fragment estimates (one token per 4 characters, rounded up). -/
theorem C7_stream_event_protocol :
    ∀ (jobId prompt selectedModel : String) (mi : ModelInfo)
      (outcome : StreamOutcome) (elapsed : Int) (st : StreamState),
      st = streamHandler jobId prompt selectedModel (some mi) true outcome elapsed →
      st.events.head? = some (.started jobId)
      ∧ chunkContents st.events = outcome.frags.filter (fun f => f.length ≠ 0)
      ∧ (st.events.filter SEvent.isTerminal).length = 1
      ∧ st.events.getLast?.map SEvent.isTerminal = some true
      ∧ noChunkAfterTerminal st.events = true
      ∧ (∀ (tid : String) (total : Nat) (cost : ℚ) (pt : Int),
          SEvent.complete tid total cost pt ∈ st.events →
          (outcome.frags.map estimateTokens).sum ≤ total) := by
  intro jobId prompt selectedModel mi outcome elapsed st hst
  subst hst
  cases outcome with
  | success frags =>
    have hev : (streamHandler jobId prompt selectedModel (some mi) true
        (.success frags) elapsed).events =
        SEvent.started jobId ::
          ((chunkEvents jobId frags 0).1 ++
            [SEvent.complete jobId (chunkEvents jobId frags 0).2
              (calculateCost selectedModel ((chunkEvents jobId frags 0).2 : ℚ))
              elapsed]) := by
      simp [streamHandler]
    have hAll : ∀ e ∈ SEvent.started jobId :: (chunkEvents jobId frags 0).1,
        e.isTerminal = false := by
      intro e he
      rcases List.mem_cons.mp he with h1 | h2
      · simp [h1, SEvent.isTerminal]
      · exact isTerminal_eq_false_of_isChunk e (chunkEvents_all_chunk _ _ _ e h2)
    rw [hev]
    refine ⟨rfl, ?_, ?_, ?_, ?_, ?_⟩
    · simp [chunkContents, chunkContents_append, chunkEvents_contents,
        StreamOutcome.frags]
    · rw [← List.cons_append]
      exact filter_terminal_append_single _ _ hAll rfl
    · rw [← List.cons_append, List.getLast?_concat]
      rfl
    · rw [← List.cons_append]
      exact noChunkAfterTerminal_append_single _ _ hAll
    · intro tid total cost pt hmem
      rw [List.mem_cons] at hmem
      rcases hmem with h1 | hmem
      · simp at h1
      · rw [List.mem_append] at hmem
        rcases hmem with h2 | h3
        · exact absurd h2 (complete_not_mem_chunkEvents _ _ _ _ _ _ _)
        · rw [List.mem_singleton] at h3
          have htot : total = (chunkEvents jobId frags 0).2 := by
            injection h3
          rw [htot, chunkEvents_snd]
          simp [StreamOutcome.frags]
  | failure frags msg =>
    have hev : (streamHandler jobId prompt selectedModel (some mi) true
        (.failure frags msg) elapsed).events =
        SEvent.started jobId ::
          ((chunkEvents jobId frags 0).1 ++ [SEvent.errorEvt jobId msg]) := by
      simp [streamHandler]
    have hAll : ∀ e ∈ SEvent.started jobId :: (chunkEvents jobId frags 0).1,
        e.isTerminal = false := by
      intro e he
      rcases List.mem_cons.mp he with h1 | h2
      · simp [h1, SEvent.isTerminal]
      · exact isTerminal_eq_false_of_isChunk e (chunkEvents_all_chunk _ _ _ e h2)
    rw [hev]
    refine ⟨rfl, ?_, ?_, ?_, ?_, ?_⟩
    · simp [chunkContents, chunkContents_append, chunkEvents_contents,
        StreamOutcome.frags]
    · rw [← List.cons_append]
      exact filter_terminal_append_single _ _ hAll rfl
    · rw [← List.cons_append, List.getLast?_concat]
      rfl
    · rw [← List.cons_append]
      exact noChunkAfterTerminal_append_single _ _ hAll
    · intro tid total cost pt hmem
      rw [List.mem_cons] at hmem
      rcases hmem with h1 | hmem
      · simp at h1
      · rw [List.mem_append] at hmem
        rcases hmem with h2 | h3
        · exact absurd h2 (complete_not_mem_chunkEvents _ _ _ _ _ _ _)
        · rw [List.mem_singleton] at h3
          simp at h3

/-- Witness for C7 at a concrete two-fragment stream. -/
theorem C7_witness :
    (streamHandler "j1" "hi" "gpt-3.5-turbo" (some ⟨1, "openai"⟩) true
        (.success ["hello", "world!"]) 7).events.head? = some (.started "j1")
    ∧ noChunkAfterTerminal
        (streamHandler "j1" "hi" "gpt-3.5-turbo" (some ⟨1, "openai"⟩) true
          (.success ["hello", "world!"]) 7).events = true :=
  ⟨(C7_stream_event_protocol "j1" "hi" "gpt-3.5-turbo" ⟨1, "openai"⟩
      (.success ["hello", "world!"]) 7 _ rfl).1,
   (C7_stream_event_protocol "j1" "hi" "gpt-3.5-turbo" ⟨1, "openai"⟩
      (.success ["hello", "world!"]) 7 _ rfl).2.2.2.2.1⟩

/-- C1: evaluation of the `/process` failure path at a concrete failing
request. The claim says a raising provider call leaves the job `failed`
with the error recorded and a failure event published; in the code the
inner catch block's first statement reads `startTime`, a `const` of the
sibling `try` block that is not in the catch block's scope, so a
`ReferenceError` aborts the catch block: the job row stays in the
non-terminal `processing` status, nothing is published on
`ai_job_updates`, and the caller receives the `ReferenceError` message
instead of the provider's. -/
theorem C1_provider_failure_behavior :
    inScope processInnerTryScope "startTime" = true
    ∧ inScope processCatchScope "startTime" = false
    ∧ (processHandler "job-1" "hello" "gpt-3.5-turbo" (some ⟨1, "openai"⟩) true
        (.err "upstream failure") 5).1.job =
      some { pendingJob "job-1" "hello" with
        status := "processing", model_id := some 1 }
    ∧ (processHandler "job-1" "hello" "gpt-3.5-turbo" (some ⟨1, "openai"⟩) true
        (.err "upstream failure") 5).1.published = []
    ∧ (processHandler "job-1" "hello" "gpt-3.5-turbo" (some ⟨1, "openai"⟩) true
        (.err "upstream failure") 5).2 =
      .processingFailed "startTime is not defined" :=
  ⟨rfl, rfl, rfl, rfl, rfl⟩

/-- C3 counterexample: a streaming request naming a model absent from the
registry produces no job record at all — the `/stream` handler only
inserts the job after model and provider resolution — refuting the
claim that a `failed` job record is still produced on both paths. -/
theorem C3_counterexample :
    (streamHandler "job-2" "hello" "missing-model" none true
        (.success ["x"]) 3).jobs = []
    ∧ (streamHandler "job-2" "hello" "missing-model" none true
        (.success ["x"]) 3).events = [.plainError "Model not available"]
    ∧ (streamHandler "job-2" "hello" "missing-model" none true
        (.success ["x"]) 3).providerCalled = false :=
  ⟨rfl, rfl, rfl⟩

/-- C3 amended: for every request naming an absent or inactive model no
provider call is made and the caller receives a model-unavailable error
before any output; on the synchronous path a job record ending in status
`failed` with an explanatory message is produced, while on the streaming
path no job record is created. -/
theorem C3_model_unavailable :
    (∀ (jobId prompt selectedModel : String) (providerRegistered : Bool)
        (outcome : ProviderResult) (elapsed : Int),
        1 ≤ prompt.length → prompt.length ≤ 10000 →
        ((processHandler jobId prompt selectedModel none providerRegistered
            outcome elapsed).1.providerCalled = false)
        ∧ ((processHandler jobId prompt selectedModel none providerRegistered
            outcome elapsed).1.job.map (fun j => j.status) = some "failed")
        ∧ ((processHandler jobId prompt selectedModel none providerRegistered
            outcome elapsed).1.job.map (fun j => j.error_message) =
          some (some ("Model " ++ selectedModel ++ " not found or inactive")))
        ∧ ((processHandler jobId prompt selectedModel none providerRegistered
            outcome elapsed).2 =
          .modelNotAvailable ("Model " ++ selectedModel ++ " is not available")))
    ∧ (∀ (jobId prompt selectedModel : String) (providerStreams : Bool)
        (outcome : StreamOutcome) (elapsed : Int),
        (streamHandler jobId prompt selectedModel none providerStreams
            outcome elapsed).providerCalled = false
        ∧ (streamHandler jobId prompt selectedModel none providerStreams
            outcome elapsed).jobs = []
        ∧ (streamHandler jobId prompt selectedModel none providerStreams
            outcome elapsed).events = [.plainError "Model not available"]) := by
  constructor
  · intro jobId prompt selectedModel pr outcome elapsed h1 h2
    have hv : ¬ ¬ (1 ≤ prompt.length ∧ prompt.length ≤ 10000) :=
      not_not_intro ⟨h1, h2⟩
    unfold processHandler
    rw [if_neg hv]
    exact ⟨rfl, rfl, rfl, rfl⟩
  · intro jobId prompt selectedModel ps outcome elapsed
    exact ⟨rfl, rfl, rfl⟩

/-- Witness for C3's amended statement at a concrete request. -/
theorem C3_witness :
    ((processHandler "job-5" "hello" "ghost-model" none true
        (.ok "r" 1 0) 2).1.job.map (fun j => j.status) = some "failed")
    ∧ (streamHandler "job-6" "hello" "ghost-model" none true
        (.success []) 2).jobs = [] :=
  ⟨(C3_model_unavailable.1 "job-5" "hello" "ghost-model" true (.ok "r" 1 0) 2
      (by decide) (by decide)).2.1,
   (C3_model_unavailable.2 "job-6" "hello" "ghost-model" true (.success []) 2).2.1⟩

/-- C4: evaluation of both handlers at an empty prompt. The synchronous
handler rejects it before any job row exists; the streaming handler has
the same validator chain attached to its route but never consults
`validationResult`, so the identical request creates a job row (with the
empty prompt stored) and invokes the provider — refuting the claim that
the streaming path performs the identical validation step. -/
theorem C4_stream_validation_gap :
    ((processHandler "job-3" "" "gpt-3.5-turbo" (some ⟨1, "openai"⟩) true
        (.ok "r" 1 0) 2).1.job = none)
    ∧ ((processHandler "job-3" "" "gpt-3.5-turbo" (some ⟨1, "openai"⟩) true
        (.ok "r" 1 0) 2).2 = .validationFailed)
    ∧ ((streamHandler "job-4" "" "gpt-3.5-turbo" (some ⟨1, "openai"⟩) true
        (.success ["ok"]) 2).jobs.map (fun j => j.prompt) = [""])
    ∧ ((streamHandler "job-4" "" "gpt-3.5-turbo" (some ⟨1, "openai"⟩) true
        (.success ["ok"]) 2).jobs.map (fun j => j.status) = ["completed"])
    ∧ ((streamHandler "job-4" "" "gpt-3.5-turbo" (some ⟨1, "openai"⟩) true
        (.success ["ok"]) 2).providerCalled = true) :=
  ⟨rfl, rfl, rfl, rfl, rfl⟩

end KingdomGPT
